import Mathlib

/-!
Verification of the meeting-recording sync service.

The backend described by backend/README.md (file monitor, OAuth token
manager, upload orchestrator, retry/circuit-breaker policy) ships only as
documentation in this repository; the executable definitions below for those
components are therefore modelled from the specification, as their doc
comments state.  The configuration surface (backend/env.example) and the UI
layer (components/*.tsx) are present in the sources and are embedded from
them directly.
-/

/-- Modelled from the spec: failure classification used by the Retry Policy
of backend/utils/error_handler.py (absent from the sources).  Transient
failures (network timeout, 5xx, connection reset) are retried; non-transient
failures (4xx auth errors, validation errors) propagate immediately. -/
inductive Failure where
  | transient
  | nonTransient
deriving DecidableEq, Repr

/-- Modelled from the spec: the retry loop of the Retry Policy.  `op i` is
the outcome of the i-th invocation of the wrapped operation, `fuel` the
number of attempts still allowed and `calls` the number of invocations
already made.  Returns the final outcome together with the total number of
invocations performed. -/
def retryGo (op : Nat → Except Failure α) : Nat → Nat → Except Failure α × Nat
  | 0, calls => (Except.error Failure.transient, calls)
  | fuel + 1, calls =>
    match op calls with
    | Except.ok a => (Except.ok a, calls + 1)
    | Except.error Failure.nonTransient => (Except.error Failure.nonTransient, calls + 1)
    | Except.error Failure.transient =>
      if fuel = 0 then (Except.error Failure.transient, calls + 1)
      else retryGo op fuel (calls + 1)

/-- Modelled from the spec: wrap a fallible operation with up to
`maxAttempts` attempts (MAX_RETRY_ATTEMPTS, default 3); only
classified-transient failures are retried. -/
def retry (maxAttempts : Nat) (op : Nat → Except Failure α) : Except Failure α × Nat :=
  retryGo op maxAttempts 0

theorem retryGo_allTransient (op : Nat → Except Failure α)
    (htrans : ∀ i, op i = Except.error Failure.transient) :
    ∀ fuel calls, 1 ≤ fuel →
      retryGo op fuel calls = (Except.error Failure.transient, calls + fuel) := by
  intro fuel
  induction fuel with
  | zero => intro calls h; omega
  | succ f ih =>
    intro calls _
    rw [retryGo, htrans calls]
    by_cases hf : f = 0
    · subst hf; simp
    · simp only [hf, if_false]
      rw [ih (calls + 1) (Nat.one_le_iff_ne_zero.mpr hf)]
      congr 1
      omega

theorem retry_nonTransient_first (maxAttempts : Nat) (op : Nat → Except Failure α)
    (hmax : 1 ≤ maxAttempts) (h0 : op 0 = Except.error Failure.nonTransient) :
    retry maxAttempts op = (Except.error Failure.nonTransient, 1) := by
  obtain ⟨m, rfl⟩ : ∃ m, maxAttempts = m + 1 :=
    ⟨maxAttempts - 1, by omega⟩
  rw [retry, retryGo, h0]

theorem retryGo_ok_source (op : Nat → Except Failure α) :
    ∀ fuel calls a n, retryGo op fuel calls = (Except.ok a, n) →
      ∃ i, op i = Except.ok a := by
  intro fuel
  induction fuel with
  | zero => intro calls a n h; rw [retryGo] at h; cases h
  | succ f ih =>
    intro calls a n h
    rw [retryGo] at h
    cases hop : op calls with
    | ok b =>
      rw [hop] at h
      exact ⟨calls, by rw [hop]; cases h; rfl⟩
    | error e =>
      cases e with
      | nonTransient => rw [hop] at h; cases h
      | transient =>
        rw [hop] at h
        by_cases hf : f = 0
        · subst hf; simp at h
        · simp only [hf, if_false] at h
          exact ih (calls + 1) a n h

/-- C3: an operation that fails with a classified-transient failure on every
attempt is invoked exactly `maxAttempts` times (default 3) before the caller
observes a terminal failure, and an operation whose first invocation fails
non-transiently (4xx auth error, validation error) is invoked exactly once
and its failure propagates immediately. -/
theorem retry_ceiling (maxAttempts : Nat) (op opNT : Nat → Except Failure α)
    (hmax : 1 ≤ maxAttempts)
    (htrans : ∀ i, op i = Except.error Failure.transient)
    (hnon : opNT 0 = Except.error Failure.nonTransient) :
    retry maxAttempts op = (Except.error Failure.transient, maxAttempts) ∧
    retry maxAttempts opNT = (Except.error Failure.nonTransient, 1) := by
  constructor
  · rw [retry, retryGo_allTransient op htrans maxAttempts 0 hmax, Nat.zero_add]
  · exact retry_nonTransient_first maxAttempts opNT hmax hnon

/-- Witness for C3 at maxAttempts = 3 with concrete operations. -/
theorem retry_ceiling_witness :
    retry 3 (fun _ => (Except.error Failure.transient : Except Failure Nat)) =
      (Except.error Failure.transient, 3) ∧
    retry 3 (fun _ => (Except.error Failure.nonTransient : Except Failure Nat)) =
      (Except.error Failure.nonTransient, 1) :=
  retry_ceiling 3 _ _ (by decide) (fun _ => rfl) rfl

/-- Modelled from the spec: circuit-breaker state per downstream target.
`closed n` holds the count of consecutive transient failures observed;
`tripped t` is the open state entered at time `t` (the spec calls it
`open`; a call arriving after the cool-down acts as the half-open trial). -/
inductive BreakerState where
  | closed (consecutiveFailures : Nat)
  | tripped (openedAt : Nat)
deriving DecidableEq, Repr

/-- Modelled from the spec: the outcome a breaker-guarded call reports. -/
inductive BreakerResult where
  | ok
  | failed
  | circuitOpen
deriving DecidableEq, Repr

/-- Modelled from the spec: one call through the circuit breaker at time
`now`; `opSucceeds` abstracts the underlying operation.  Returns the
reported result, the next breaker state, and whether the underlying
operation was invoked.  While open and within the cool-down the call fails
fast with CircuitOpenError and the operation is not invoked; once the
cool-down has elapsed the call is the single half-open trial, whose success
closes the breaker and whose failure reopens it at `now`. -/
def breakerCall (threshold cooldown : Nat) (s : BreakerState) (now : Nat)
    (opSucceeds : Bool) : BreakerResult × BreakerState × Bool :=
  match s with
  | BreakerState.closed n =>
    if opSucceeds then (BreakerResult.ok, BreakerState.closed 0, true)
    else if threshold ≤ n + 1 then (BreakerResult.failed, BreakerState.tripped now, true)
    else (BreakerResult.failed, BreakerState.closed (n + 1), true)
  | BreakerState.tripped since =>
    if now < since + cooldown then
      (BreakerResult.circuitOpen, BreakerState.tripped since, false)
    else if opSucceeds then (BreakerResult.ok, BreakerState.closed 0, true)
    else (BreakerResult.failed, BreakerState.tripped now, true)

/-- Modelled from the spec: a run of `k` consecutive failing calls through
the breaker, all at time `t`. -/
def breakerFailRun (threshold cooldown t : Nat) : Nat → BreakerState → BreakerState
  | 0, s => s
  | k + 1, s =>
    breakerFailRun threshold cooldown t k (breakerCall threshold cooldown s t false).2.1

theorem breakerFailRun_opens (threshold cooldown t : Nat) :
    ∀ k n, n + k = threshold → 1 ≤ k →
      breakerFailRun threshold cooldown t k (BreakerState.closed n) =
        BreakerState.tripped t := by
  intro k
  induction k with
  | zero => intro n h h1; omega
  | succ j ih =>
    intro n hsum _
    rw [breakerFailRun, breakerCall]
    by_cases hj : j = 0
    · subst hj
      have : threshold ≤ n + 1 := by omega
      simp only [Bool.false_eq_true, if_false, this, if_true]
      rfl
    · have hlt : ¬ threshold ≤ n + 1 := by omega
      simp only [Bool.false_eq_true, if_false, hlt, if_true]
      exact ih (n + 1) (by omega) (by omega)

/-- C4: after `threshold` consecutive transient failures the breaker is
open; every call made while open and within the cool-down fails immediately
with CircuitOpenError without invoking the underlying operation and leaves
the state unchanged; once the cool-down has elapsed the next call is the
single half-open trial, which does invoke the operation, returns the breaker
to closed on success, and returns it to open with the cool-down restarted on
failure. -/
theorem circuit_breaker_invariant (threshold cooldown t : Nat)
    (hthr : 1 ≤ threshold) :
    breakerFailRun threshold cooldown t threshold (BreakerState.closed 0) =
      BreakerState.tripped t ∧
    (∀ since now r, now < since + cooldown →
      breakerCall threshold cooldown (BreakerState.tripped since) now r =
        (BreakerResult.circuitOpen, BreakerState.tripped since, false)) ∧
    (∀ since now, since + cooldown ≤ now →
      breakerCall threshold cooldown (BreakerState.tripped since) now true =
        (BreakerResult.ok, BreakerState.closed 0, true) ∧
      breakerCall threshold cooldown (BreakerState.tripped since) now false =
        (BreakerResult.failed, BreakerState.tripped now, true)) := by
  refine ⟨breakerFailRun_opens threshold cooldown t threshold 0 (by omega) hthr, ?_, ?_⟩
  · intro since now r h
    rw [breakerCall]
    simp [h]
  · intro since now h
    have hnl : ¬ now < since + cooldown := by omega
    constructor <;> (rw [breakerCall]; simp [hnl])

/-- Witness for C4 with threshold 3, cool-down 5, failures at time 0. -/
theorem circuit_breaker_invariant_witness :
    breakerFailRun 3 5 0 3 (BreakerState.closed 0) = BreakerState.tripped 0 ∧
    breakerCall 3 5 (BreakerState.tripped 0) 4 true =
      (BreakerResult.circuitOpen, BreakerState.tripped 0, false) ∧
    breakerCall 3 5 (BreakerState.tripped 0) 5 true =
      (BreakerResult.ok, BreakerState.closed 0, true) ∧
    breakerCall 3 5 (BreakerState.tripped 0) 5 false =
      (BreakerResult.failed, BreakerState.tripped 5, true) :=
  ⟨(circuit_breaker_invariant 3 5 0 (by decide)).1,
   (circuit_breaker_invariant 3 5 0 (by decide)).2.1 0 4 true (by decide),
   ((circuit_breaker_invariant 3 5 0 (by decide)).2.2 0 5 (by decide)).1,
   ((circuit_breaker_invariant 3 5 0 (by decide)).2.2 0 5 (by decide)).2⟩

/-- Modelled from the spec: the per-path entry of the File Monitor
known-files map of backend/services/file_monitor.py (absent from the
sources): observed size, the time since which that size has been observed
unchanged, and whether an ingestion event has already been emitted for the
path. -/
structure FileRecord where
  size : Nat
  stableSince : Nat
  seen : Bool
deriving DecidableEq, Repr

/-- Modelled from the spec: the per-path step of the File Monitor scan() at
time `now` observing size `sz`.  A newly appearing or resized file restarts
the stability clock and emits nothing; a path already marked seen is never
re-emitted; a non-empty file whose size has been unchanged for the stability
`window` is emitted exactly once and marked seen; zero-byte files are never
considered stable.  Returns the updated record and whether an ingestion
event was emitted. -/
def scanFile (window now sz : Nat) : Option FileRecord → FileRecord × Bool
  | none => ({ size := sz, stableSince := now, seen := false }, false)
  | some r =>
    if r.seen then (r, false)
    else if sz ≠ r.size then ({ size := sz, stableSince := now, seen := false }, false)
    else if 0 < sz ∧ r.stableSince + window ≤ now then ({ r with seen := true }, true)
    else (r, false)

/-- Modelled from the spec: fold scanFile over a sequence of
(scan time, observed size) observations for one path, counting the emitted
ingestion events. -/
def runScans (window : Nat) : List (Nat × Nat) → Option FileRecord → Option FileRecord × Nat
  | [], r => (r, 0)
  | (now, sz) :: rest, r =>
    let step := scanFile window now sz r
    let next := runScans window rest (some step.1)
    (next.1, (if step.2 then 1 else 0) + next.2)

theorem scanFile_seen (window now sz : Nat) (r : FileRecord) (h : r.seen = true) :
    scanFile window now sz (some r) = (r, false) := by
  rw [scanFile]
  simp [h]

theorem scanFile_emit_seen (window now sz : Nat) (orec : Option FileRecord)
    (h : (scanFile window now sz orec).2 = true) :
    (scanFile window now sz orec).1.seen = true := by
  cases orec with
  | none => rw [scanFile] at h ⊢; cases h
  | some r =>
    rw [scanFile] at h ⊢
    by_cases hs : r.seen = true
    · simp [hs] at h
    · simp only [Bool.not_eq_true] at hs
      simp only [hs, Bool.false_eq_true, if_false] at h ⊢
      by_cases hsz : sz ≠ r.size
      · simp [hsz] at h
      · simp only [hsz, if_false] at h ⊢
        by_cases hc : 0 < sz ∧ r.stableSince + window ≤ now
        · simp [hc]
        · simp [hc] at h

theorem runScans_seen (window : Nat) :
    ∀ obs (r : FileRecord), r.seen = true →
      runScans window obs (some r) = (some r, 0) := by
  intro obs
  induction obs with
  | nil => intro r _; rfl
  | cons o rest ih =>
    intro r h
    obtain ⟨now, sz⟩ := o
    rw [runScans]
    simp only [scanFile_seen window now sz r h]
    rw [ih r h]
    simp

theorem runScans_le_one (window : Nat) :
    ∀ obs (orec : Option FileRecord), (runScans window obs orec).2 ≤ 1 := by
  intro obs
  induction obs with
  | nil => intro orec; exact Nat.zero_le 1
  | cons o rest ih =>
    intro orec
    obtain ⟨now, sz⟩ := o
    rw [runScans]
    by_cases he : (scanFile window now sz orec).2 = true
    · have hseen := scanFile_emit_seen window now sz orec he
      simp only [he, if_true]
      rw [runScans_seen window rest _ hseen]
      simp
    · simp only [Bool.not_eq_true] at he
      simp only [he, Bool.false_eq_true, if_false]
      simpa using ih (some (scanFile window now sz orec).1)

/-- C2: a file whose size changed between two consecutive scans is never
emitted as an ingestion event; a scan observing an unseen, non-empty file
whose size has been unchanged across the stability window emits an event and
marks the path seen; over any sequence of scans at most one event is ever
emitted for a path, and a path already marked seen is never emitted again. -/
theorem stability_detection (window : Nat) :
    (∀ now sz r, sz ≠ r.size → (scanFile window now sz (some r)).2 = false) ∧
    (∀ now sz r, r.seen = false → sz = r.size → 0 < sz →
      r.stableSince + window ≤ now →
      scanFile window now sz (some r) = ({ r with seen := true }, true)) ∧
    (∀ obs orec, (runScans window obs orec).2 ≤ 1) ∧
    (∀ obs r, r.seen = true → runScans window obs (some r) = (some r, 0)) := by
  refine ⟨?_, ?_, runScans_le_one window, runScans_seen window⟩
  · intro now sz r hne
    rw [scanFile]
    by_cases hs : r.seen = true
    · simp [hs]
    · simp only [Bool.not_eq_true] at hs
      simp [hs, hne]
  · intro now sz r hseen hsz hpos hwin
    rw [scanFile]
    subst hsz
    simp [hseen, hpos, hwin]

/-- Witness for C2 with window 3: a growing file is not emitted; a file
stable across the window is emitted once; repeated scans of a seen file emit
nothing further. -/
theorem stability_detection_witness :
    (scanFile 3 10 7 (some { size := 5, stableSince := 8, seen := false })).2 = false ∧
    scanFile 3 11 5 (some { size := 5, stableSince := 8, seen := false }) =
      ({ size := 5, stableSince := 8, seen := true }, true) ∧
    (runScans 3 [(10, 5), (11, 5), (12, 5), (13, 5)]
      (some { size := 5, stableSince := 8, seen := false })).2 ≤ 1 ∧
    runScans 3 [(12, 5), (13, 5)] (some { size := 5, stableSince := 8, seen := true }) =
      (some { size := 5, stableSince := 8, seen := true }, 0) :=
  ⟨(stability_detection 3).1 10 7 _ (by decide),
   (stability_detection 3).2.1 11 5 { size := 5, stableSince := 8, seen := false }
     rfl rfl (by decide) (by decide),
   (stability_detection 3).2.2.1 [(10, 5), (11, 5), (12, 5), (13, 5)] _,
   (stability_detection 3).2.2.2 [(12, 5), (13, 5)] _ rfl⟩

theorem find_map_replace {α : Type} (p : α → Bool) (r : α) (hpr : p r = true) :
    ∀ l : List α, l.any p = true →
      (l.map (fun x => if p x then r else x)).find? p = some r := by
  intro l
  induction l with
  | nil => intro h; simp at h
  | cons x xs ih =>
    intro h
    cases hpx : p x with
    | true => simp [List.find?, hpx, hpr]
    | false =>
      have hxs : xs.any p = true := by simpa [hpx] using h
      simp [List.find?, hpx, ih hxs]

theorem filter_map_replace_length {α : Type} (p : α → Bool) (r : α) (hpr : p r = true) :
    ∀ l : List α,
      ((l.map (fun x => if p x then r else x)).filter p).length = (l.filter p).length := by
  intro l
  induction l with
  | nil => rfl
  | cons x xs ih =>
    cases hpx : p x with
    | true => simp [List.filter, hpx, hpr, ih]
    | false => simp [List.filter, hpx, ih]

theorem any_false_filter_nil {α : Type} (p : α → Bool) :
    ∀ l : List α, l.any p = false → l.filter p = [] := by
  intro l
  induction l with
  | nil => intro _; rfl
  | cons x xs ih =>
    intro h
    have hpx : p x = false := by
      cases hx : p x
      · rfl
      · simp [hx] at h
    have hxs : xs.any p = false := by simpa [hpx] using h
    simp [List.filter, hpx, ih hxs]

theorem one_le_length_filter {α : Type} (p : α → Bool) :
    ∀ l : List α, l.any p = true → 1 ≤ (l.filter p).length := by
  intro l
  induction l with
  | nil => intro h; simp at h
  | cons x xs ih =>
    intro h
    cases hpx : p x with
    | true => simp [List.filter, hpx]
    | false =>
      have hxs : xs.any p = true := by simpa [hpx] using h
      simpa [List.filter, hpx] using ih hxs

/-- Modelled from the spec: the processing status of a Recording row of the
recordings table (backend/README.md database schema). -/
inductive ProcessingStatus where
  | discovered
  | uploading
  | uploaded
  | failed
deriving DecidableEq, Repr

/-- A row of the recordings table, with the fields of the spec data model
that the Upload Orchestrator writes. -/
structure Recording where
  recording_id : String
  user_id : String
  file_name : String
  file_size : Nat
  meeting_title : String
  processing_status : ProcessingStatus
  file_url : Option String
deriving DecidableEq, Repr

/-- An ingestion event emitted by the File Monitor for a stabilized file. -/
structure IngestEvent where
  path : String
  size : Nat
  mtime : Nat
  user : String
deriving DecidableEq, Repr

/-- Modelled from the spec: the deterministic fingerprint deriving
recording_id from file path + size + modification time. -/
def recordingId (path : String) (size mtime : Nat) : String :=
  path ++ ":" ++ toString size ++ ":" ++ toString mtime

/-- Modelled from the spec: best-effort meeting title parse from the
filename; unparsable names fall back to the raw filename. -/
def parseMeetingTitle (fileName : String) : String :=
  match (fileName.splitOn ".").head? with
  | some t => if t = "" then fileName else t
  | none => fileName

/-- Modelled from the spec: the URL the Storage Backend reports for a
successfully stored recording. -/
def storageUrl (rid : String) : String :=
  "storage://recordings/" ++ rid

/-- Look up a recordings-table row by recording_id. -/
def findRecording (db : List Recording) (rid : String) : Option Recording :=
  db.find? (fun x => x.recording_id == rid)

/-- Number of recordings-table rows carrying a given recording_id. -/
def countId (db : List Recording) (rid : String) : Nat :=
  (db.filter (fun x => x.recording_id == rid)).length

/-- Modelled from the spec: Metadata Store upsert keyed by recording_id —
replaces the matching row when one exists, inserts otherwise. -/
def upsertRecording (r : Recording) (db : List Recording) : List Recording :=
  if db.any (fun x => x.recording_id == r.recording_id) then
    db.map (fun x => if x.recording_id == r.recording_id then r else x)
  else r :: db

/-- Modelled from the spec: the partial record persisted when the
orchestrator marks an event uploading (step 3 of the algorithm). -/
def baseRecord (ev : IngestEvent) : Recording :=
  { recording_id := recordingId ev.path ev.size ev.mtime,
    user_id := ev.user,
    file_name := ev.path,
    file_size := ev.size,
    meeting_title := parseMeetingTitle ev.path,
    processing_status := ProcessingStatus.uploading,
    file_url := none }

/-- Modelled from the spec: the final record persisted after the upload
attempt — uploaded with its storage URL on success, failed otherwise
(steps 6 and 7 of the algorithm). -/
def finalRecord (ev : IngestEvent) (uploadOk : Bool) : Recording :=
  if uploadOk then
    { baseRecord ev with
      processing_status := ProcessingStatus.uploaded,
      file_url := some (storageUrl (recordingId ev.path ev.size ev.mtime)) }
  else { baseRecord ev with processing_status := ProcessingStatus.failed }

/-- Modelled from the spec: the upload path of the Upload Orchestrator —
persist the uploading mark, attempt the upload (`uploadOk` abstracts the
Storage Backend outcome behind the Retry Policy), persist the final state.
Returns the new table and the number of uploads attempted. -/
def processUpload (db : List Recording) (ev : IngestEvent) (uploadOk : Bool) :
    List Recording × Nat :=
  (upsertRecording (finalRecord ev uploadOk) (upsertRecording (baseRecord ev) db), 1)

/-- Modelled from the spec: one ingestion event through the Upload
Orchestrator — derive the fingerprint, skip as an idempotent no-op when a
Recording with that id already exists with status uploaded, otherwise
run the upload path. -/
def processEvent (db : List Recording) (ev : IngestEvent) (uploadOk : Bool) :
    List Recording × Nat :=
  match findRecording db (recordingId ev.path ev.size ev.mtime) with
  | some r =>
    if r.processing_status = ProcessingStatus.uploaded then (db, 0)
    else processUpload db ev uploadOk
  | none => processUpload db ev uploadOk

theorem finalRecord_id (ev : IngestEvent) (u : Bool) :
    (finalRecord ev u).recording_id = recordingId ev.path ev.size ev.mtime := by
  cases u <;> rfl

theorem findRecording_upsert_self (r : Recording) (db : List Recording) :
    findRecording (upsertRecording r db) r.recording_id = some r := by
  rw [upsertRecording]
  by_cases hany : db.any (fun x => x.recording_id == r.recording_id) = true
  · rw [if_pos hany, findRecording]
    exact find_map_replace _ r (by simp) db hany
  · rw [if_neg hany, findRecording]
    simp [List.find?]

theorem countId_upsert (r : Recording) (db : List Recording)
    (h : countId db r.recording_id ≤ 1) :
    countId (upsertRecording r db) r.recording_id = 1 := by
  rw [upsertRecording]
  by_cases hany : db.any (fun x => x.recording_id == r.recording_id) = true
  · rw [if_pos hany, countId, filter_map_replace_length _ r (by simp) db]
    have h1 := one_le_length_filter _ db hany
    rw [countId] at h
    omega
  · rw [if_neg hany, countId]
    have hfalse : db.any (fun x => x.recording_id == r.recording_id) = false := by
      cases hx : db.any (fun x => x.recording_id == r.recording_id)
      · rfl
      · exact absurd hx hany
    rw [List.filter_cons]
    simp only [beq_self_eq_true, if_true]
    rw [any_false_filter_nil _ db hfalse]
    rfl

theorem processEvent_skip (db : List Recording) (ev : IngestEvent) (u : Bool)
    (r : Recording)
    (hf : findRecording db (recordingId ev.path ev.size ev.mtime) = some r)
    (hs : r.processing_status = ProcessingStatus.uploaded) :
    processEvent db ev u = (db, 0) := by
  rw [processEvent, hf]
  simp [hs]

theorem processEvent_runs (db : List Recording) (ev : IngestEvent) (u : Bool)
    (hnot : ∀ r, findRecording db (recordingId ev.path ev.size ev.mtime) = some r →
      ¬ r.processing_status = ProcessingStatus.uploaded) :
    processEvent db ev u = processUpload db ev u := by
  rw [processEvent]
  cases hf : findRecording db (recordingId ev.path ev.size ev.mtime) with
  | none => rfl
  | some r => simp [hnot r hf]

theorem processUpload_find (db : List Recording) (ev : IngestEvent) (u : Bool) :
    findRecording (processUpload db ev u).1 (recordingId ev.path ev.size ev.mtime) =
      some (finalRecord ev u) := by
  rw [processUpload]
  have h := findRecording_upsert_self (finalRecord ev u)
    (upsertRecording (baseRecord ev) db)
  rw [finalRecord_id] at h
  exact h

theorem processUpload_countId (db : List Recording) (ev : IngestEvent) (u : Bool)
    (h : countId db (recordingId ev.path ev.size ev.mtime) ≤ 1) :
    countId (processUpload db ev u).1 (recordingId ev.path ev.size ev.mtime) ≤ 1 := by
  rw [processUpload]
  have hbase : countId (upsertRecording (baseRecord ev) db)
      (recordingId ev.path ev.size ev.mtime) = 1 :=
    countId_upsert (baseRecord ev) db h
  have hfin := countId_upsert (finalRecord ev u) (upsertRecording (baseRecord ev) db)
  rw [finalRecord_id] at hfin
  rw [hfin (by omega)]

theorem processEvent_countId (db : List Recording) (ev : IngestEvent) (u : Bool)
    (h : countId db (recordingId ev.path ev.size ev.mtime) ≤ 1) :
    countId (processEvent db ev u).1 (recordingId ev.path ev.size ev.mtime) ≤ 1 := by
  rw [processEvent]
  cases hf : findRecording db (recordingId ev.path ev.size ev.mtime) with
  | none => exact processUpload_countId db ev u h
  | some r =>
    by_cases hs : r.processing_status = ProcessingStatus.uploaded
    · simpa [hs] using h
    · simpa [hs] using processUpload_countId db ev u h

/-- C1: upload is idempotent by recording_id — when a Recording with the
derived recording_id already exists with status uploaded the orchestrator
performs no upload and no state change; after a successful ingestion, a
second ingestion of the same file (same path, size, mtime, as after a
restart) is such a no-op; and a table holding at most one row per
fingerprint never acquires two rows for the fingerprint, however often the
event is processed. -/
theorem upload_idempotent (db : List Recording) (ev : IngestEvent) (u u2 : Bool)
    (hwf : countId db (recordingId ev.path ev.size ev.mtime) ≤ 1) :
    (∀ r, findRecording db (recordingId ev.path ev.size ev.mtime) = some r →
      r.processing_status = ProcessingStatus.uploaded →
      processEvent db ev u = (db, 0)) ∧
    processEvent (processEvent db ev true).1 ev u2 = ((processEvent db ev true).1, 0) ∧
    countId (processEvent db ev u).1 (recordingId ev.path ev.size ev.mtime) ≤ 1 ∧
    countId (processEvent (processEvent db ev u).1 ev u2).1
      (recordingId ev.path ev.size ev.mtime) ≤ 1 := by
  refine ⟨fun r hf hs => processEvent_skip db ev u r hf hs, ?_, ?_, ?_⟩
  · by_cases hup : ∃ r, findRecording db (recordingId ev.path ev.size ev.mtime) = some r ∧
        r.processing_status = ProcessingStatus.uploaded
    · obtain ⟨r, hf, hs⟩ := hup
      rw [processEvent_skip db ev true r hf hs]
      exact processEvent_skip db ev u2 r hf hs
    · have hnot : ∀ r, findRecording db (recordingId ev.path ev.size ev.mtime) = some r →
          ¬ r.processing_status = ProcessingStatus.uploaded := by
        intro r hf hs
        exact hup ⟨r, hf, hs⟩
      rw [processEvent_runs db ev true hnot]
      exact processEvent_skip (processUpload db ev true).1 ev u2 (finalRecord ev true)
        (processUpload_find db ev true) rfl
  · exact processEvent_countId db ev u hwf
  · exact processEvent_countId (processEvent db ev u).1 ev u2
      (processEvent_countId db ev u hwf)

/-- Witness for C1: a concrete event against a table already holding the
uploaded row is skipped, a second ingestion after a successful first is a
no-op, and the fingerprint never has two rows. -/
theorem upload_idempotent_witness :
    processEvent
      [{ recording_id := recordingId "m.mp4" 10 5, user_id := "u1", file_name := "m.mp4",
         file_size := 10, meeting_title := "m", processing_status := ProcessingStatus.uploaded,
         file_url := some "x" }]
      { path := "m.mp4", size := 10, mtime := 5, user := "u1" } true =
      ([{ recording_id := recordingId "m.mp4" 10 5, user_id := "u1", file_name := "m.mp4",
          file_size := 10, meeting_title := "m", processing_status := ProcessingStatus.uploaded,
          file_url := some "x" }], 0) ∧
    processEvent
      (processEvent [] { path := "m.mp4", size := 10, mtime := 5, user := "u1" } true).1
      { path := "m.mp4", size := 10, mtime := 5, user := "u1" } false =
      ((processEvent [] { path := "m.mp4", size := 10, mtime := 5, user := "u1" } true).1, 0) ∧
    countId (processEvent [] { path := "m.mp4", size := 10, mtime := 5, user := "u1" } true).1
      (recordingId "m.mp4" 10 5) ≤ 1 :=
  ⟨(upload_idempotent
      [{ recording_id := recordingId "m.mp4" 10 5, user_id := "u1", file_name := "m.mp4",
         file_size := 10, meeting_title := "m", processing_status := ProcessingStatus.uploaded,
         file_url := some "x" }]
      { path := "m.mp4", size := 10, mtime := 5, user := "u1" } true true (by decide)).1
      { recording_id := recordingId "m.mp4" 10 5, user_id := "u1", file_name := "m.mp4",
        file_size := 10, meeting_title := "m", processing_status := ProcessingStatus.uploaded,
        file_url := some "x" }
      (by rw [findRecording]; simp [List.find?]) rfl,
   (upload_idempotent [] { path := "m.mp4", size := 10, mtime := 5, user := "u1" }
      true false (by decide)).2.1,
   (upload_idempotent [] { path := "m.mp4", size := 10, mtime := 5, user := "u1" }
      true false (by decide)).2.2.1⟩

/-- A row of the zoom_tokens table (backend/README.md database schema). -/
structure OAuthToken where
  access_token : String
  refresh_token : String
  expires_at : Nat
deriving DecidableEq, Repr

/-- Modelled from the spec: the per-user single-flight refresh state of the
Token Manager of backend/auth.py (absent from the sources).  `cached` is the
stored token, `pending` whether a refresh is in flight, `waiters` the
callers awaiting that refresh, `refreshCalls` the number of refresh calls
issued to the provider, and `results` the token each caller has received. -/
structure SingleFlight where
  cached : OAuthToken
  pending : Bool
  waiters : List Nat
  refreshCalls : Nat
  results : Nat → Option OAuthToken

/-- Modelled from the spec: caller `c` enters getValidToken at time `now`
with refresh margin `margin`.  A valid cached token is returned at once;
with an expired token, the first caller starts the single refresh (one
provider call) and later callers join the waiter list instead of issuing
another. -/
def sfArrive (margin now : Nat) (c : Nat) (s : SingleFlight) : SingleFlight :=
  if now + margin < s.cached.expires_at then
    { s with results := fun d => if d = c then some s.cached else s.results d }
  else if s.pending then { s with waiters := c :: s.waiters }
  else
    { s with pending := true, refreshCalls := s.refreshCalls + 1, waiters := [c] }

/-- Modelled from the spec: the in-flight refresh completes with the
provider result `newTok`; the new token is cached and every waiter receives
the shared result. -/
def sfComplete (newTok : OAuthToken) (s : SingleFlight) : SingleFlight :=
  if s.pending then
    { cached := newTok, pending := false, waiters := [],
      refreshCalls := s.refreshCalls,
      results := fun d => if d ∈ s.waiters then some newTok else s.results d }
  else s

/-- Modelled from the spec: a batch of concurrent callers arriving one
interleaving step at a time. -/
def sfArriveAll (margin now : Nat) (cs : List Nat) (s : SingleFlight) : SingleFlight :=
  cs.foldl (fun acc c => sfArrive margin now c acc) s

theorem sfArriveAll_pending (margin now : Nat) :
    ∀ (cs : List Nat) (s : SingleFlight), s.pending = true →
      ¬ now + margin < s.cached.expires_at →
      (sfArriveAll margin now cs s).pending = true ∧
      (sfArriveAll margin now cs s).cached = s.cached ∧
      (sfArriveAll margin now cs s).refreshCalls = s.refreshCalls ∧
      (sfArriveAll margin now cs s).waiters = cs.reverse ++ s.waiters := by
  intro cs
  induction cs with
  | nil => intro s hp _; exact ⟨hp, rfl, rfl, by simp [sfArriveAll]⟩
  | cons c rest ih =>
    intro s hp hexp
    have hstep : sfArrive margin now c s = { s with waiters := c :: s.waiters } := by
      rw [sfArrive]
      simp [hexp, hp]
    have hfold : sfArriveAll margin now (c :: rest) s =
        sfArriveAll margin now rest { s with waiters := c :: s.waiters } := by
      rw [sfArriveAll, List.foldl_cons, hstep]; rfl
    obtain ⟨h1, h2, h3, h4⟩ := ih { s with waiters := c :: s.waiters } hp hexp
    rw [hfold]
    refine ⟨h1, h2, h3, ?_⟩
    rw [h4]
    simp

/-- C5: with an expired token and an idle (no in-flight refresh) start
state, any nonempty batch of concurrent getValidToken callers for the user
causes exactly one refresh call to be issued to the provider, and once that
single refresh completes every caller in the batch has received its result. -/
theorem single_flight_refresh (margin now : Nat) (s : SingleFlight)
    (c : Nat) (cs : List Nat) (newTok : OAuthToken)
    (hexp : ¬ now + margin < s.cached.expires_at)
    (hidle : s.pending = false)
    (hcalls : s.refreshCalls = 0) :
    (sfArriveAll margin now (c :: cs) s).refreshCalls = 1 ∧
    (sfComplete newTok (sfArriveAll margin now (c :: cs) s)).refreshCalls = 1 ∧
    (∀ d, d ∈ c :: cs →
      (sfComplete newTok (sfArriveAll margin now (c :: cs) s)).results d =
        some newTok) := by
  have hstep : sfArrive margin now c s =
      { s with pending := true, refreshCalls := s.refreshCalls + 1, waiters := [c] } := by
    rw [sfArrive]
    simp [hexp, hidle]
  have hfold : sfArriveAll margin now (c :: cs) s =
      sfArriveAll margin now cs
        { s with pending := true, refreshCalls := s.refreshCalls + 1, waiters := [c] } := by
    rw [sfArriveAll, List.foldl_cons, hstep]; rfl
  obtain ⟨h1, h2, h3, h4⟩ := sfArriveAll_pending margin now cs
    { s with pending := true, refreshCalls := s.refreshCalls + 1, waiters := [c] }
    rfl hexp
  have hcount : (sfArriveAll margin now (c :: cs) s).refreshCalls = 1 := by
    rw [hfold, h3]
    simp [hcalls]
  have hpend : (sfArriveAll margin now (c :: cs) s).pending = true := by
    rw [hfold]; exact h1
  have hwait : (sfArriveAll margin now (c :: cs) s).waiters = cs.reverse ++ [c] := by
    rw [hfold, h4]
  refine ⟨hcount, ?_, ?_⟩
  · rw [sfComplete]
    simp only [hpend, if_true]
    exact hcount
  · intro d hd
    rw [sfComplete]
    simp only [hpend, if_true]
    have hmem : d ∈ (sfArriveAll margin now (c :: cs) s).waiters := by
      rw [hwait]
      rcases List.mem_cons.mp hd with h | h
      · exact List.mem_append.mpr (Or.inr (by simp [h]))
      · exact List.mem_append.mpr (Or.inl (List.mem_reverse.mpr h))
    simp [hmem]

/-- Witness for C5: three concurrent callers over an expired token issue one
refresh and all receive the refreshed token. -/
theorem single_flight_refresh_witness :
    (sfArriveAll 60 100 [1, 2, 3]
      { cached := { access_token := "a", refresh_token := "r", expires_at := 100 },
        pending := false, waiters := [], refreshCalls := 0,
        results := fun _ => none }).refreshCalls = 1 ∧
    (sfComplete { access_token := "a2", refresh_token := "r2", expires_at := 4000 }
      (sfArriveAll 60 100 [1, 2, 3]
        { cached := { access_token := "a", refresh_token := "r", expires_at := 100 },
          pending := false, waiters := [], refreshCalls := 0,
          results := fun _ => none })).results 2 =
      some { access_token := "a2", refresh_token := "r2", expires_at := 4000 } :=
  ⟨(single_flight_refresh 60 100
      { cached := { access_token := "a", refresh_token := "r", expires_at := 100 },
        pending := false, waiters := [], refreshCalls := 0, results := fun _ => none }
      1 [2, 3] { access_token := "a2", refresh_token := "r2", expires_at := 4000 }
      (by decide) rfl rfl).1,
   (single_flight_refresh 60 100
      { cached := { access_token := "a", refresh_token := "r", expires_at := 100 },
        pending := false, waiters := [], refreshCalls := 0, results := fun _ => none }
      1 [2, 3] { access_token := "a2", refresh_token := "r2", expires_at := 4000 }
      (by decide) rfl rfl).2.2 2 (by decide)⟩

/-- Modelled from the spec: the error taxonomy of the Token Manager.
stateMismatch is AuthStateMismatchError, exchangeFailed is
OAuthExchangeError, reauthRequired is ReauthorizationRequiredError, and
refreshExhausted is the terminal transient failure after the retry
ceiling. -/
inductive AuthError where
  | stateMismatch
  | exchangeFailed
  | reauthRequired
  | refreshExhausted
deriving DecidableEq, Repr

/-- Modelled from the spec: the Token Manager persistent state — the CSRF
state value bound to each user by beginAuthorization, and the stored OAuth
token per user. -/
structure AuthState where
  pendingStates : String → Option String
  tokens : String → Option OAuthToken

/-- Modelled from the spec: beginAuthorization binds a fresh CSRF state
value to the user and returns the provider authorization URL carrying it. -/
def beginAuthorization (user stateValue : String) (s : AuthState) : AuthState × String :=
  ({ s with
      pendingStates := fun u => if u = user then some stateValue else s.pendingStates u },
   "https://zoom.us/oauth/authorize?state=" ++ stateValue)

/-- Modelled from the spec: completeAuthorization validates the callback
state value against the one bound by beginAuthorization, rejecting a missing
or mismatched value with AuthStateMismatchError before any exchange; on a
matching state the code is exchanged (`exchange` abstracts the provider
token endpoint) and the resulting token persisted.  Returns the new state
with the call outcome. -/
def completeAuthorization (user code stateValue : String)
    (exchange : String → Except Unit OAuthToken) (s : AuthState) :
    AuthState × Except AuthError OAuthToken :=
  match s.pendingStates user with
  | none => (s, Except.error AuthError.stateMismatch)
  | some expected =>
    if expected = stateValue then
      match exchange code with
      | Except.error _ => (s, Except.error AuthError.exchangeFailed)
      | Except.ok tok =>
        ({ pendingStates := fun u => if u = user then none else s.pendingStates u,
           tokens := fun u => if u = user then some tok else s.tokens u },
         Except.ok tok)
    else (s, Except.error AuthError.stateMismatch)

/-- C6: a completeAuthorization call whose state value is missing or does
not match the one bound by beginAuthorization fails with
AuthStateMismatchError and leaves the whole store — in particular the token
store — unchanged, even when the authorization code itself is valid. -/
theorem auth_state_validation (user code stateValue : String)
    (exchange : String → Except Unit OAuthToken) (s : AuthState) (tok : OAuthToken)
    (hvalid : exchange code = Except.ok tok)
    (hmismatch : s.pendingStates user = none ∨
      ∀ expected, s.pendingStates user = some expected → expected ≠ stateValue) :
    completeAuthorization user code stateValue exchange s =
      (s, Except.error AuthError.stateMismatch) := by
  rw [completeAuthorization]
  cases hp : s.pendingStates user with
  | none => rfl
  | some expected =>
    rcases hmismatch with h | h
    · rw [hp] at h; cases h
    · simp [h expected hp]

/-- Witness for C6: a valid code with a missing bound state is rejected with
no change to the store. -/
theorem auth_state_validation_witness :
    completeAuthorization "u1" "code" "bad"
      (fun _ => Except.ok { access_token := "a", refresh_token := "r", expires_at := 100 })
      { pendingStates := fun _ => none, tokens := fun _ => none } =
      ({ pendingStates := fun _ => none, tokens := fun _ => none },
       Except.error AuthError.stateMismatch) :=
  auth_state_validation "u1" "code" "bad" _
    { pendingStates := fun _ => none, tokens := fun _ => none }
    { access_token := "a", refresh_token := "r", expires_at := 100 }
    rfl (Or.inl rfl)

/-- Modelled from the spec: getValidToken for a user with stored token
`tok`.  The cached token is returned untouched while
now < expires_at - refresh_margin (stated additively as
now + margin < expires_at); otherwise the refresh_token is used through the
Retry Policy (`provider i` is the outcome of the i-th refresh attempt, a
rejected refresh token being classified non-transient), the refreshed token
is persisted and returned, and a rejected refresh token marks the user
expired and fails with ReauthorizationRequiredError.  Returns the persisted
token, the call outcome, and the number of provider refresh invocations. -/
def getValidToken (maxAttempts margin now : Nat) (tok : OAuthToken)
    (provider : Nat → Except Failure OAuthToken) :
    Option OAuthToken × Except AuthError OAuthToken × Nat :=
  if now + margin < tok.expires_at then (some tok, Except.ok tok, 0)
  else
    match retry maxAttempts provider with
    | (Except.ok newTok, n) => (some newTok, Except.ok newTok, n)
    | (Except.error Failure.nonTransient, n) =>
      (none, Except.error AuthError.reauthRequired, n)
    | (Except.error Failure.transient, n) =>
      (some tok, Except.error AuthError.refreshExhausted, n)

/-- C7: getValidToken returns the cached access token without contacting the
provider while now < expires_at - refresh_margin; past the margin it
refreshes, persists and returns the provider token; a refresh token the
provider rejects fails the call with ReauthorizationRequiredError after
exactly one provider invocation, with no retry; and, provided the provider
only issues tokens whose expiry lies in the future, a returned access token
is never one whose expires_at has passed. -/
theorem get_valid_token_postcondition (maxAttempts margin now : Nat)
    (tok newTok : OAuthToken) (provider : Nat → Except Failure OAuthToken) (n : Nat)
    (hmax : 1 ≤ maxAttempts)
    (hfresh : ∀ i t, provider i = Except.ok t → now < t.expires_at) :
    (now + margin < tok.expires_at →
      getValidToken maxAttempts margin now tok provider = (some tok, Except.ok tok, 0)) ∧
    (¬ now + margin < tok.expires_at →
      retry maxAttempts provider = (Except.ok newTok, n) →
      getValidToken maxAttempts margin now tok provider =
        (some newTok, Except.ok newTok, n)) ∧
    (¬ now + margin < tok.expires_at →
      provider 0 = Except.error Failure.nonTransient →
      getValidToken maxAttempts margin now tok provider =
        (none, Except.error AuthError.reauthRequired, 1)) ∧
    (∀ pt t cnt, getValidToken maxAttempts margin now tok provider =
        (pt, Except.ok t, cnt) → now < t.expires_at) := by
  refine ⟨?_, ?_, ?_, ?_⟩
  · intro h
    rw [getValidToken, if_pos h]
  · intro hnv hr
    rw [getValidToken, if_neg hnv, hr]
  · intro hnv h0
    rw [getValidToken, if_neg hnv, retry_nonTransient_first maxAttempts provider hmax h0]
  · intro pt t cnt h
    rw [getValidToken] at h
    by_cases hv : now + margin < tok.expires_at
    · rw [if_pos hv] at h
      have ht : tok = t := by
        have := congrArg (fun x => x.2.1) h
        simpa using this
      subst ht
      omega
    · rw [if_neg hv] at h
      cases hr : retry maxAttempts provider with
      | mk res cnt2 =>
        rw [hr] at h
        cases res with
        | ok newTok2 =>
          have ht : newTok2 = t := by
            have := congrArg (fun x => x.2.1) h
            simpa using this
          rw [ht.symm]
          obtain ⟨i, hi⟩ := retryGo_ok_source provider maxAttempts 0 newTok2 cnt2 hr
          exact hfresh i newTok2 hi
        | error e =>
          cases e with
          | transient =>
            have := congrArg (fun x => x.2.1) h
            simp at this
          | nonTransient =>
            have := congrArg (fun x => x.2.1) h
            simp at this

/-- Witness for C7: a fresh cached token is returned with no provider call;
an expired token is refreshed once and the new token returned; a rejected
refresh token fails with ReauthorizationRequiredError after one call. -/
theorem get_valid_token_postcondition_witness :
    getValidToken 3 60 100
      { access_token := "a", refresh_token := "r", expires_at := 1000 }
      (fun _ => Except.ok { access_token := "b", refresh_token := "r2", expires_at := 4000 }) =
      (some { access_token := "a", refresh_token := "r", expires_at := 1000 },
       Except.ok { access_token := "a", refresh_token := "r", expires_at := 1000 }, 0) ∧
    getValidToken 3 60 100
      { access_token := "a", refresh_token := "r", expires_at := 120 }
      (fun _ => Except.ok { access_token := "b", refresh_token := "r2", expires_at := 4000 }) =
      (some { access_token := "b", refresh_token := "r2", expires_at := 4000 },
       Except.ok { access_token := "b", refresh_token := "r2", expires_at := 4000 }, 1) ∧
    getValidToken 3 60 100
      { access_token := "a", refresh_token := "r", expires_at := 120 }
      (fun _ => (Except.error Failure.nonTransient : Except Failure OAuthToken)) =
      (none, Except.error AuthError.reauthRequired, 1) :=
  ⟨(get_valid_token_postcondition 3 60 100
      { access_token := "a", refresh_token := "r", expires_at := 1000 }
      { access_token := "b", refresh_token := "r2", expires_at := 4000 }
      (fun _ => Except.ok { access_token := "b", refresh_token := "r2", expires_at := 4000 })
      1 (by decide)
      (fun i t h => by
        injection h with h2
        rw [h2.symm]
        decide)).1 (by decide),
   (get_valid_token_postcondition 3 60 100
      { access_token := "a", refresh_token := "r", expires_at := 120 }
      { access_token := "b", refresh_token := "r2", expires_at := 4000 }
      (fun _ => Except.ok { access_token := "b", refresh_token := "r2", expires_at := 4000 })
      1 (by decide)
      (fun i t h => by
        injection h with h2
        rw [h2.symm]
        decide)).2.1 (by decide) rfl,
   (get_valid_token_postcondition 3 60 100
      { access_token := "a", refresh_token := "r", expires_at := 120 }
      { access_token := "b", refresh_token := "r2", expires_at := 4000 }
      (fun _ => (Except.error Failure.nonTransient : Except Failure OAuthToken))
      1 (by decide)
      (fun i t h => by cases h)).2.2.1 (by decide) rfl⟩

/-- The variable names of backend/env.example, in file order. -/
def envExampleVars : List String :=
  ["DEBUG", "ENVIRONMENT", "HOST", "PORT", "RELOAD",
   "SECRET_KEY", "JWT_ALGORITHM", "JWT_EXPIRE_HOURS",
   "ZOOM_CLIENT_ID", "ZOOM_CLIENT_SECRET", "ZOOM_REDIRECT_URI",
   "ZOOM_BASE_URL", "ZOOM_OAUTH_URL",
   "ZOOM_RECORDINGS_PATH", "MONITOR_INTERVAL_SECONDS", "SUPPORTED_FILE_EXTENSIONS",
   "SUPABASE_URL", "SUPABASE_ANON_KEY", "SUPABASE_SERVICE_KEY", "DATABASE_URL",
   "STORAGE_PROVIDER", "STORAGE_BUCKET",
   "AWS_ACCESS_KEY_ID", "AWS_SECRET_ACCESS_KEY", "AWS_REGION", "S3_BUCKET",
   "DB_POOL_SIZE", "DB_POOL_OVERFLOW",
   "MAX_FILE_SIZE_MB", "CHUNK_SIZE_BYTES",
   "MAX_RETRY_ATTEMPTS", "RETRY_DELAY_SECONDS",
   "ENABLE_NOTIFICATIONS", "NOTIFICATION_EMAIL",
   "CORS_ORIGINS",
   "LOG_LEVEL", "LOG_FILE"]

/-- The configuration items enumerated by the configuration-surface sentence
of the spec. -/
inductive ConfigItem where
  | recordingsPath
  | pollIntervalSeconds
  | supportedFileExtensions
  | storageProviderSelection
  | storageBucket
  | storageRegion
  | maxRetryAttempts
  | retryDelaySeconds
  | tokenRefreshMargin
  | circuitBreakerThreshold
  | circuitBreakerCooldown
deriving DecidableEq, Repr

/-- The env.example variables serving each enumerated item, read off the
sections and names of the file (File Monitoring: ZOOM_RECORDINGS_PATH,
MONITOR_INTERVAL_SECONDS, SUPPORTED_FILE_EXTENSIONS; Storage Configuration:
STORAGE_PROVIDER, STORAGE_BUCKET, S3_BUCKET, AWS_REGION; Error Handling:
MAX_RETRY_ATTEMPTS, RETRY_DELAY_SECONDS); the empty list records that no
variable in the file concerns the item. -/
def itemVars : ConfigItem → List String
  | ConfigItem.recordingsPath => ["ZOOM_RECORDINGS_PATH"]
  | ConfigItem.pollIntervalSeconds => ["MONITOR_INTERVAL_SECONDS"]
  | ConfigItem.supportedFileExtensions => ["SUPPORTED_FILE_EXTENSIONS"]
  | ConfigItem.storageProviderSelection => ["STORAGE_PROVIDER"]
  | ConfigItem.storageBucket => ["STORAGE_BUCKET", "S3_BUCKET"]
  | ConfigItem.storageRegion => ["AWS_REGION"]
  | ConfigItem.maxRetryAttempts => ["MAX_RETRY_ATTEMPTS"]
  | ConfigItem.retryDelaySeconds => ["RETRY_DELAY_SECONDS"]
  | ConfigItem.tokenRefreshMargin => []
  | ConfigItem.circuitBreakerThreshold => []
  | ConfigItem.circuitBreakerCooldown => []

/-- The completeness property C8 asserts: every enumerated item has at least
one controlling variable, and every such variable is one of the file. -/
def configSurfaceComplete : Prop :=
  ∀ item : ConfigItem,
    itemVars item ≠ [] ∧ ∀ v ∈ itemVars item, v ∈ envExampleVars

/-- Whether the first character list occurs at the head of the second. -/
def fragAt : List Char → List Char → Bool
  | [], _ => true
  | _ :: _, [] => false
  | a :: as, b :: bs => a == b && fragAt as bs

/-- Whether the first character list occurs anywhere in the second. -/
def fragIn (needle : List Char) : List Char → Bool
  | [] => fragAt needle []
  | b :: bs => fragAt needle (b :: bs) || fragIn needle bs

/-- Substring occurrence test over strings. -/
def containsFragment (hay needle : String) : Bool :=
  fragIn needle.toList hay.toList

/-- The spec items the file does provide variables for. -/
def coveredItems : List ConfigItem :=
  [ConfigItem.recordingsPath, ConfigItem.pollIntervalSeconds,
   ConfigItem.supportedFileExtensions, ConfigItem.storageProviderSelection,
   ConfigItem.storageBucket, ConfigItem.storageRegion,
   ConfigItem.maxRetryAttempts, ConfigItem.retryDelaySeconds]

/-- The spec items no variable of the file concerns. -/
def uncoveredItems : List ConfigItem :=
  [ConfigItem.tokenRefreshMargin, ConfigItem.circuitBreakerThreshold,
   ConfigItem.circuitBreakerCooldown]

/-- C8 counterexample: the configuration surface is not complete for the
items the spec enumerates — the token refresh margin has no variable in
backend/env.example, and indeed no variable name in the file so much as
mentions a margin, circuit, breaker, threshold or cool-down. -/
theorem config_surface_incomplete :
    ¬ configSurfaceComplete ∧
    envExampleVars.all (fun v =>
      !(containsFragment v "MARGIN" || containsFragment v "CIRCUIT" ||
        containsFragment v "BREAKER" || containsFragment v "THRESHOLD" ||
        containsFragment v "COOL")) = true := by
  constructor
  · intro h
    exact (h ConfigItem.tokenRefreshMargin).1 rfl
  · decide

/-- C8 as amended: every enumerated item except the token refresh margin and
the circuit-breaker threshold and cool-down has a controlling variable in
backend/env.example, and those three have none. -/
theorem config_surface_amended :
    (∀ item ∈ coveredItems,
      itemVars item ≠ [] ∧ ∀ v ∈ itemVars item, v ∈ envExampleVars) ∧
    (∀ item ∈ uncoveredItems, itemVars item = []) := by
  decide

/-- Witness for the amended C8 at two concrete items. -/
theorem config_surface_amended_witness :
    (itemVars ConfigItem.recordingsPath ≠ [] ∧
      ∀ v ∈ itemVars ConfigItem.recordingsPath, v ∈ envExampleVars) ∧
    itemVars ConfigItem.tokenRefreshMargin = [] :=
  ⟨config_surface_amended.1 ConfigItem.recordingsPath (by decide),
   config_surface_amended.2 ConfigItem.tokenRefreshMargin (by decide)⟩

/-- The observable effects of the UI-layer handlers (components/*.tsx): a
component-local state update, a toast notification, a pure setTimeout timer,
or a call to an external service (an effect the handlers could perform but,
as proved below, never do). -/
inductive UIEffect where
  | localUpdate (field value : String)
  | toast (title : String)
  | timer (ms : Nat)
  | httpCall (endpoint : String)
deriving DecidableEq, Repr

/-- NotionViewer.handleConnect: sets connecting, waits on a 2000 ms timer
simulating the OAuth flow, marks connected, and raises a toast. -/
def handleConnect : List UIEffect :=
  [UIEffect.localUpdate "connecting" "true",
   UIEffect.timer 2000,
   UIEffect.localUpdate "connected" "true",
   UIEffect.localUpdate "connecting" "false",
   UIEffect.toast "Connected to Notion"]

/-- NotionViewer.handleSync: sets syncing, waits on a 1500 ms timer, clears
syncing, and raises a toast. -/
def handleSync : List UIEffect :=
  [UIEffect.localUpdate "syncing" "true",
   UIEffect.timer 1500,
   UIEffect.localUpdate "syncing" "false",
   UIEffect.toast "Sync completed"]

/-- SettingsPanel.handleSave: sets saving, waits on a 1000 ms timer
simulating the API call, clears saving, and raises a toast. -/
def handleSave : List UIEffect :=
  [UIEffect.localUpdate "saving" "true",
   UIEffect.timer 1000,
   UIEffect.localUpdate "saving" "false",
   UIEffect.toast "Settings saved"]

/-- SearchInterface search effect (the useEffect on query and filter): for a
query longer than two characters a 300 ms timer runs and the results are set
to the empty list; otherwise the results are cleared immediately.  Returns
the effects performed and the resulting displayed result list. -/
def searchEffect (query : String) : List UIEffect × List String :=
  if query.length > 2 then
    ([UIEffect.timer 300, UIEffect.localUpdate "results" "empty"], [])
  else ([UIEffect.localUpdate "results" "empty"], [])

/-- NotionViewer.mockNotionPages: the displayed Notion page list. -/
def mockNotionPages : List String := []

/-- Whether a UI effect reaches outside the component. -/
def isExternalCall : UIEffect → Bool
  | UIEffect.httpCall _ => true
  | _ => false

/-- C9: the asynchronous user-facing handlers of the shipped UI layer —
connect to Notion, sync, save settings, and search — perform no call to the
core HTTP surface or any other external service; their only effects are
component-local state updates, toasts and pure timers, and for every query
the displayed result lists remain empty. -/
theorem ui_handlers_no_external_calls (query : String) :
    (handleConnect ++ handleSync ++ handleSave ++ (searchEffect query).1).all
      (fun e => !isExternalCall e) = true ∧
    (searchEffect query).2 = [] ∧
    mockNotionPages = [] := by
  refine ⟨?_, ?_, rfl⟩ <;>
    (rw [searchEffect]; by_cases h : query.length > 2 <;> simp [h]) <;>
    decide

/-- FeedbackInterface component state: the star rating, the feedback text,
and the submitting flag. -/
structure FeedbackState where
  rating : Nat
  feedback : String
  submitting : Bool
deriving DecidableEq, Repr

/-- One step the FeedbackInterface handlers perform. -/
inductive FeedbackStep where
  | setSubmitting (b : Bool)
  | setRating (n : Nat)
  | setFeedback (text : String)
  | toast (title : String)
  | sleep (ms : Nat)
deriving DecidableEq, Repr

/-- FeedbackInterface.handleSubmit: with rating 0 it raises the
Rating required toast and returns; otherwise it enters submitting, waits the
simulated second, leaves submitting, resets rating and feedback, and raises
the confirmation toast. -/
def handleSubmit (s : FeedbackState) : List FeedbackStep :=
  if s.rating = 0 then [FeedbackStep.toast "Rating required"]
  else
    [FeedbackStep.setSubmitting true,
     FeedbackStep.sleep 1000,
     FeedbackStep.setSubmitting false,
     FeedbackStep.setRating 0,
     FeedbackStep.setFeedback "",
     FeedbackStep.toast "Feedback submitted"]

/-- The effect of one step on the component state; toasts and sleeps leave
it unchanged. -/
def applyStep (s : FeedbackState) : FeedbackStep → FeedbackState
  | FeedbackStep.setSubmitting b => { s with submitting := b }
  | FeedbackStep.setRating n => { s with rating := n }
  | FeedbackStep.setFeedback text => { s with feedback := text }
  | FeedbackStep.toast _ => s
  | FeedbackStep.sleep _ => s

/-- Run a handler step list over the component state. -/
def runSteps (s : FeedbackState) (steps : List FeedbackStep) : FeedbackState :=
  steps.foldl applyStep s

/-- The Textarea onChange under maxLength 500: the control caps the typed
value at 500 characters before it is stored. -/
def feedbackChange (s : FeedbackState) (typed : String) : FeedbackState :=
  { s with feedback := String.mk (typed.toList.take 500) }

/-- C10: with rating 0 handleSubmit only raises the Rating required toast —
it never enters the submitting state and leaves the feedback text unchanged;
with a positive rating a completed submission resets rating to 0, feedback
to the empty string and submitting to false; and the stored feedback text is
capped at 500 characters. -/
theorem feedback_submit_behavior (s : FeedbackState) (typed : String) :
    (s.rating = 0 →
      handleSubmit s = [FeedbackStep.toast "Rating required"] ∧
      FeedbackStep.setSubmitting true ∉ handleSubmit s ∧
      (runSteps s (handleSubmit s)).feedback = s.feedback) ∧
    (0 < s.rating →
      (runSteps s (handleSubmit s)).rating = 0 ∧
      (runSteps s (handleSubmit s)).feedback = "" ∧
      (runSteps s (handleSubmit s)).submitting = false) ∧
    (feedbackChange s typed).feedback.length ≤ 500 := by
  refine ⟨?_, ?_, ?_⟩
  · intro h0
    rw [handleSubmit]
    simp [h0, runSteps, applyStep]
  · intro hpos
    have h0 : ¬ s.rating = 0 := by omega
    rw [handleSubmit]
    simp [h0, runSteps, applyStep]
  · show (String.mk (typed.toList.take 500)).length ≤ 500
    have : (String.mk (typed.toList.take 500)).length = (typed.toList.take 500).length :=
      rfl
    rw [this, List.length_take]
    omega

/-- Witness for C10 at concrete states: a zero rating only toasts and keeps
the feedback text, a completed submission with rating 4 clears the form, and
a long typed value is stored capped at 500 characters. -/
theorem feedback_submit_behavior_witness :
    handleSubmit { rating := 0, feedback := "hello", submitting := false } =
      [FeedbackStep.toast "Rating required"] ∧
    (runSteps { rating := 4, feedback := "great", submitting := false }
      (handleSubmit { rating := 4, feedback := "great", submitting := false })).feedback =
      "" ∧
    (feedbackChange { rating := 0, feedback := "", submitting := false }
      (String.mk (List.replicate 600 'x'))).feedback.length ≤ 500 :=
  ⟨((feedback_submit_behavior
      { rating := 0, feedback := "hello", submitting := false } "t").1 rfl).1,
   ((feedback_submit_behavior
      { rating := 4, feedback := "great", submitting := false } "t").2.1
      (by decide)).2.1,
   (feedback_submit_behavior { rating := 0, feedback := "", submitting := false }
      (String.mk (List.replicate 600 'x'))).2.2⟩
